import Mathlib

/-!
Verification of the DLab persistent job queue and worker execution core.

The development shallowly embeds the Python core of the repository:

* `api/managers.py` : `APIManager.create_record`, `APIManager.delete_record`,
  `DaemonManager.run_func`, `DaemonManager.start_task`,
  `DaemonManager.finish_task`, `DaemonManager.process_error`.
* `api/command_builder.py` : `CommandBuilder.params`, `CommandBuilder.build_cmd`.

The record store (`SQLiteRepository`) and the queue
(`FIFOSQLiteQueueRepository`) live in `dlab_core/infrastructure/repositories.py`,
which is not part of the provided source slice (only its tests and callers
are); those two components are modelled from the specification text, as
marked on their definitions.

Worker execution is embedded as a trace of micro steps (dequeue, record
write, process spawn, process exit, queue-entry removal) in exactly the
order `run_func` performs them; the state semantics `run_func` is the fold
of the micro-step interpreter over that trace, so temporal claims and
state claims are settled against a single embedding.
-/

namespace DLabCore

/-- Lifecycle status codes of a job record: the closed enumeration
`processed` (queued, awaiting pickup), `started` (running), `done`
(completed without detected failure), `error` (completed with detected
failure), mirroring `PROCESSED`, `STARTED`, `DONE`, `ERROR` imported by
`api/managers.py`. -/
inductive Status
  | processed
  | started
  | done
  | error
deriving DecidableEq

/-- A job record as persisted by the record store: `id` assigned on insert,
the `request` payload (the deserialized key/value mapping, in its natural
iteration order, values already rendered to their textual form), the target
`resource`, the `action` name, the lifecycle `status` and the optional
`error` detail.  This is the fully populated shape of `DlabModel`
(`api/models.py`, not in the source slice) as the store returns it. -/
structure DlabRecord where
  id : Nat
  request : List (String × String)
  resource : String
  action : String
  status : Status
  error : Option String
deriving DecidableEq

/-- A partial record as passed to the store update operation: the Python
code builds `DlabModel(id=..., ...)` with only some keyword fields present,
and the store overwrites only the fields present.  A `none` field means the
keyword was absent and the stored value is kept. -/
structure DlabUpdate where
  id : Nat
  request : Option (List (String × String)) := none
  resource : Option String := none
  action : Option String := none
  status : Option Status := none
  error : Option String := none
deriving DecidableEq

/-- Modelled from the spec: the Record Store (`SQLiteRepository` is not in
the source slice).  A durable table of job records keyed by an
auto-generated identifier: `rows` holds the records in insertion order and
`nextId` is the next auto-increment identifier, never reused. -/
structure DlabStore where
  rows : List DlabRecord
  nextId : Nat
deriving DecidableEq

/-- Modelled from the spec: an empty store; SQLite auto-increment keys
start at 1. -/
def DlabStore.empty : DlabStore := ⟨[], 1⟩

/-- Overwrite exactly the fields present in the partial record `u`,
leaving the rest of the row intact (spec, Record Store `update`). -/
def applyUpdate (u : DlabUpdate) (r : DlabRecord) : DlabRecord :=
  { r with
    request := u.request.getD r.request
    resource := u.resource.getD r.resource
    action := u.action.getD r.action
    status := u.status.getD r.status
    error := match u.error with
      | none => r.error
      | some m => some m }

/-- Modelled from the spec: `insert(record) → id` assigns a new unique
identifier, persists all fields, returns the identifier.  A freshly
inserted row has no error detail. -/
def DlabStore.insert (st : DlabStore) (request : List (String × String))
    (resource action : String) (status : Status) : Nat × DlabStore :=
  (st.nextId,
   ⟨st.rows ++ [⟨st.nextId, request, resource, action, status, none⟩],
    st.nextId + 1⟩)

/-- Modelled from the spec: `find_one(id)` is exact-match lookup by
identifier. -/
def DlabStore.find_one (st : DlabStore) (id : Nat) : Option DlabRecord :=
  st.rows.find? (fun r => r.id == id)

/-- Modelled from the spec: `update(partial_record)` overwrites only the
fields present in the partial record on the row with the matching
identifier. -/
def DlabStore.update (st : DlabStore) (u : DlabUpdate) : DlabStore :=
  ⟨st.rows.map (fun r => if r.id = u.id then applyUpdate u r else r),
   st.nextId⟩

/-- Modelled from the spec: the FIFO Queue (`FIFOSQLiteQueueRepository` is
not in the source slice).  `pending` holds the enqueued identifiers in
insertion order; `outstanding` holds the identifiers that have been
dequeued by `get` but whose entry has not yet been removed by `delete`
(the spec: removal marks the attempt as no longer outstanding, it does not
happen at dequeue time), most recently dequeued first. -/
structure FIFOQueue where
  pending : List Nat
  outstanding : List Nat
deriving DecidableEq

/-- Modelled from the spec: the empty queue. -/
def FIFOQueue.empty : FIFOQueue := ⟨[], []⟩

/-- Modelled from the spec: `insert(id)` appends to the tail as a single
atomic append. -/
def FIFOQueue.insert (q : FIFOQueue) (id : Nat) : FIFOQueue :=
  ⟨q.pending ++ [id], q.outstanding⟩

/-- Modelled from the spec: `get()` atomically returns the head entry and
delivers it to exactly one caller, so the entry leaves `pending` and
becomes the most recent `outstanding` entry; on an empty queue the call
reports empty (`none`). -/
def FIFOQueue.get : FIFOQueue → Option (Nat × FIFOQueue)
  | ⟨[], _⟩ => none
  | ⟨id :: rest, out⟩ => some (id, ⟨rest, id :: out⟩)

/-- Modelled from the spec: `delete()` removes the most recently dequeued
entry. -/
def FIFOQueue.delete (q : FIFOQueue) : FIFOQueue :=
  ⟨q.pending, q.outstanding.tail⟩

/-- Run `n` successive atomic `get` operations, collecting the returned
identifiers in order.  Any interleaving of `n` concurrent callers of the
atomic `get` of the spec performs exactly this sequence of state
transitions. -/
def FIFOQueue.getN : FIFOQueue → Nat → List Nat × FIFOQueue
  | q, 0 => ([], q)
  | q, n + 1 =>
    match q.get with
    | none => ([], q)
    | some (id, q1) =>
      let p := FIFOQueue.getN q1 n
      (id :: p.1, p.2)

/-- Insert a list of identifiers one after the other (tail appends). -/
def FIFOQueue.insertAll (q : FIFOQueue) (l : List Nat) : FIFOQueue :=
  l.foldl FIFOQueue.insert q

/-- The backslash character, named to keep escape-sensitive character
literals out of the text. -/
def bsChar : Char := Char.ofNat 92

/-- The single-quote character. -/
def quoteChar : Char := Char.ofNat 39

/-- The double-quote character. -/
def dquoteChar : Char := Char.ofNat 34

/-- Embeds `key.replace(-, _)` from `CommandBuilder.params`
(`api/command_builder.py` line 19): every hyphen in the key is replaced by
an underscore (for a one-character pattern, Python string replace is
exactly this character map). -/
def keyNormalize (k : String) : String :=
  ⟨k.data.map (fun c => if c = Char.ofNat 45 then Char.ofNat 95 else c)⟩

/-- Embeds one element of the list comprehension in `CommandBuilder.params`:
`param_string.format(key.replace(-, _), val)` with
`param_string = --key=value`. -/
def flagOf (kv : String × String) : String :=
  "--" ++ keyNormalize kv.1 ++ "=" ++ kv.2

/-- Embeds `CommandBuilder.params`: the flag strings of the request
mapping, in its natural iteration order, joined with single spaces
(Python join). -/
def paramsOf (request : List (String × String)) : String :=
  String.intercalate " " (request.map flagOf)

/-- Embeds `os.path.join` for the fixed, already rooted installation
directory used by `CommandBuilder`: the directory joined with the file
name by the path separator. -/
def joinPath (a b : String) : String := a ++ "/" ++ b

/-- Embeds `CommandBuilder.build_cmd` (`api/command_builder.py` lines
36-37): the interpreter path, the launcher path (both resolved relative to
the installation directory `exeDir` of the running interpreter), the
resource, the action, and the joined flag parameters. -/
def buildCmd (exeDir : String) (r : DlabRecord) : List String :=
  [joinPath exeDir "python", joinPath exeDir "dlab",
   r.resource, r.action, paramsOf r.request]

/-- Embeds the POSIX semantics of `subprocess.Popen(args, shell=True)`
when `args` is a LIST, as at `api/managers.py` lines 88-91: the child is
`/bin/sh -c` with the first element of the list as the command string and
the remaining elements as positional parameters of that shell, so only
the first element is executed. -/
def popenShellCommand (cmd : List String) : String := cmd.headD ""

/-- The remaining elements of the argument list under
`Popen(args, shell=True)`: positional parameters of the wrapping shell,
never handed to the executed program. -/
def popenShellPositionals (cmd : List String) : List String := cmd.tail

/-- Whether `pat` is an initial segment of `l` (character-wise). -/
def leadsWith : List Char → List Char → Bool
  | [], _ => true
  | _ :: _, [] => false
  | c :: ps, d :: ls => c == d && leadsWith ps ls

/-- Whether `pat` occurs as a contiguous segment of `l`: the Python
substring containment test `pat in l`. -/
def hasSubseg (pat l : List Char) : Bool :=
  match l with
  | [] => pat.isEmpty
  | _ :: t => leadsWith pat l || hasSubseg pat t

/-- Embeds the failure-marker test of `DaemonManager.run_func`
(`api/managers.py` line 95): `Traceback in err.decode()`, substring
containment of the marker in the decoded captured error stream. -/
def containsMarker (err : String) : Bool :=
  hasSubseg "Traceback".data err.data

/-- One hexadecimal digit as Python lowercase repr prints it. -/
def hexDigit (n : Nat) : Char :=
  if n < 10 then Char.ofNat (48 + n) else Char.ofNat (87 + n)

/-- Python repr escape of one byte inside a bytes literal delimited by the
quote character `q` (ASCII model, mirroring CPython bytes repr): the
delimiter and the backslash are backslash-escaped, tab, newline and
carriage return print as two-character escapes, the other printable ASCII
bytes (the other quote character included, unescaped) print verbatim, and
everything else prints as a lowercase hexadecimal escape. -/
def pyByteEscape (q c : Char) : List Char :=
  if c = q ∨ c = bsChar then [bsChar, c]
  else if c = Char.ofNat 9 then [bsChar, Char.ofNat 116]
  else if c = Char.ofNat 10 then [bsChar, Char.ofNat 110]
  else if c = Char.ofNat 13 then [bsChar, Char.ofNat 114]
  else if c.toNat < 32 ∨ 127 ≤ c.toNat then
    [bsChar, Char.ofNat 120, hexDigit (c.toNat / 16 % 16),
     hexDigit (c.toNat % 16)]
  else [c]

/-- The delimiter the CPython smartquote selection picks for a bytes
repr: a single quote, unless the content contains a single quote and no
double quote, in which case the repr switches to double-quote delimiters
(and the single quotes then print verbatim). -/
def pyReprQuote (s : List Char) : Char :=
  if s.contains quoteChar && !(s.contains dquoteChar) then dquoteChar
  else quoteChar

/-- Embeds `str(e)` for `e = DaemonManagerException(err)` raised at
`api/managers.py` line 96: `err` is the raw captured bytes object (it is
not decoded before being passed to the exception), so Python renders the
message as the bytes repr: a `b`, the smartquote-selected delimiter, the
escaped byte text, and the closing delimiter.  `errText` is the decoded
text of the captured stream (ASCII model of the bytes). -/
def pyExcStr (errText : String) : String :=
  ⟨[Char.ofNat 98, pyReprQuote errText.data]
    ++ (errText.data.map (pyByteEscape (pyReprQuote errText.data))).flatten
    ++ [pyReprQuote errText.data]⟩

/-- Concrete marker-carrying diagnostic text containing a single quote
(built by concatenation to keep quote characters out of the literals):
the text `Traceback: can` followed by a single quote and `t`, the shape
of a typical quoted-message traceback. -/
def quoteyErr : String := "Traceback: can" ++ ⟨[quoteChar]⟩ ++ "t"

/-- The shared mutable state of the core: the record store and the FIFO
queue (`BaseManager` holds one of each). -/
structure SysState where
  store : DlabStore
  queue : FIFOQueue
deriving DecidableEq

/-- The initial state: empty store, empty queue. -/
def initState : SysState := ⟨DlabStore.empty, FIFOQueue.empty⟩

/-- The outcome of one external process execution as `subprocess.Popen`
plus `communicate` observe it: captured standard output, captured
standard error (decoded text), and the exit code.  The worker never reads
the exit code. -/
structure ProcResult where
  out : String
  err : String
  exitCode : Int
deriving DecidableEq

/-- The partial record written by `DaemonManager.start_task`:
`DlabModel(id=record_id, status=STATUSES[STARTED])`. -/
def startUpd (id : Nat) : DlabUpdate :=
  { id := id, status := some Status.started }

/-- The partial record written by `DaemonManager.finish_task`:
`DlabModel(id=record_id, status=STATUSES[DONE])`. -/
def doneUpd (id : Nat) : DlabUpdate :=
  { id := id, status := some Status.done }

/-- The partial record written by `DaemonManager.process_error`:
`DlabModel(id=record_id, status=STATUSES[ERROR], error=message)`. -/
def errorUpd (id : Nat) (msg : String) : DlabUpdate :=
  { id := id, status := some Status.error, error := some msg }

/-- Embeds `APIManager.create_record` (`api/managers.py` lines 39-46):
insert a record with status `processed`, enqueue the new identifier, and
return it to the caller synchronously. -/
def create_record (st : SysState) (data : List (String × String))
    (resource action : String) : Nat × SysState :=
  let p := st.store.insert data resource action Status.processed
  (p.1, ⟨p.2, st.queue.insert p.1⟩)

/-- Embeds `APIManager.get_record`: read-through lookup. -/
def get_record (st : SysState) (id : Nat) : Option DlabRecord :=
  st.store.find_one id

/-- Embeds `APIManager.delete_record` (`api/managers.py` lines 51-59), the
lifecycle-transition operation: update the existing record back to status
`processed` with the new action (no other field is touched), re-enqueue
its identifier, and return the identifier. -/
def delete_record (st : SysState) (id : Nat) (action : String) :
    Nat × SysState :=
  (id,
   ⟨st.store.update { id := id, status := some Status.processed,
                      action := some action },
    st.queue.insert id⟩)

/-- One observable micro step of a worker iteration, in the order
`run_func` performs them: a dequeue, a record-store write, the spawn of
the external process, the termination of the external process, and a
queue-entry removal. -/
inductive MicroStep
  | dequeued (id : Nat)
  | wrote (u : DlabUpdate)
  | spawned (cmd : List String)
  | procFinished (p : ProcResult)
  | deletedEntry
deriving DecidableEq

/-- State effect of one micro step: dequeues and record writes and entry
removals change the shared state, spawning and waiting do not. -/
def applyMicro (st : SysState) : MicroStep → SysState
  | .dequeued _ =>
    match st.queue.get with
    | none => st
    | some (_, q1) => { st with queue := q1 }
  | .wrote u => { st with store := st.store.update u }
  | .spawned _ => st
  | .procFinished _ => st
  | .deletedEntry => { st with queue := st.queue.delete }

/-- State after a trace of micro steps. -/
def applyTrace (st : SysState) (tr : List MicroStep) : SysState :=
  tr.foldl applyMicro st

/-- Embeds one iteration of `DaemonManager.run_func` (`api/managers.py`
lines 82-101) as its ordered trace of micro steps, with the process
outcome `p` supplied as an oracle.  `start_task` dequeues and writes
status `started`; `get_execution_command` looks the record up and builds
the command (no state effect); the process is spawned and awaited; if the
captured error stream contains the marker, `DaemonManagerException(err)`
is raised with the raw bytes and `process_error` writes status `error`
with `str` of that exception; otherwise `finish_task` removes the queue
entry and then writes status `done`.  On an empty queue the iteration is
the empty trace (the non-blocking reading of the dequeue step).  The
missing-record command branch is never reached under the relationship
invariant that every queue entry references a stored record. -/
def run_func_trace (exeDir : String) (st : SysState) (p : ProcResult) :
    List MicroStep :=
  match st.queue.get with
  | none => []
  | some (id, q1) =>
    let st1 : SysState := ⟨st.store.update (startUpd id), q1⟩
    let cmd : List String :=
      match st1.store.find_one id with
      | some r => buildCmd exeDir r
      | none => []
    [.dequeued id, .wrote (startUpd id), .spawned cmd, .procFinished p] ++
      (if containsMarker p.err then
        [.wrote (errorUpd id (pyExcStr p.err))]
      else
        [.deletedEntry, .wrote (doneUpd id)])

/-- State semantics of one `run_func` iteration: the fold of the
micro-step interpreter over the iteration trace. -/
def run_func (exeDir : String) (st : SysState) (p : ProcResult) : SysState :=
  applyTrace st (run_func_trace exeDir st p)

/-- Status of the record with the given identifier, as a poller of the
record store sees it. -/
def recordStatus (st : SysState) (id : Nat) : Option Status :=
  (st.store.find_one id).map DlabRecord.status

/-- Error field of the record with the given identifier. -/
def recordError (st : SysState) (id : Nat) : Option (Option String) :=
  (st.store.find_one id).map DlabRecord.error

/-- One operation of the core as driven by its public entry points: a job
submission, a lifecycle transition re-enqueue, or one worker iteration
with the given process outcome. -/
inductive Op
  | create (data : List (String × String)) (resource action : String)
  | transition (id : Nat) (action : String)
  | runWorker (p : ProcResult)
deriving DecidableEq

/-- State effect of one operation. -/
def applyOp (exeDir : String) (st : SysState) : Op → SysState
  | .create d r a => (create_record st d r a).2
  | .transition id a => (delete_record st id a).2
  | .runWorker p => run_func exeDir st p

/-- State after a sequence of operations. -/
def applyOps (exeDir : String) (st : SysState) (ops : List Op) : SysState :=
  ops.foldl (applyOp exeDir) st

/-- Predicate on an operation: a worker iteration whose process outcome
carries no failure marker in its captured error stream, or any
non-worker operation. -/
def opNoMarker : Op → Bool
  | Op.runWorker p => !containsMarker p.err
  | _ => true

/-- Concrete sample record used by counterexamples and witnesses:
identifier 1, the payload of specification scenario 1, queued. -/
def sampleRec : DlabRecord :=
  ⟨1, [("size", "medium")], "project-a", "deploy", Status.processed, none⟩

/-- Concrete store holding only `sampleRec`; the next auto-increment
identifier is 2. -/
def sampleStore : DlabStore := ⟨[sampleRec], 2⟩

/-- Concrete state: `sampleStore` with one pending queue entry for
record 1. -/
def sampleState : SysState := ⟨sampleStore, ⟨[1], []⟩⟩

/-- Concrete process outcome whose captured error stream contains the
failure marker. -/
def markerProc : ProcResult := ⟨"", "Traceback: boom", 0⟩

/-- Concrete operation sequence driving record 1 through a failed attempt,
a lifecycle transition re-enqueue, and a successful attempt. -/
def staleErrOps : List Op :=
  [Op.create [("size", "medium")] "project-a" "deploy",
   Op.runWorker ⟨"", "Traceback: boom", 1⟩,
   Op.transition 1 "stop",
   Op.runWorker ⟨"", "", 0⟩]

/-! Helper lemmas about the store, the queue and the worker semantics. -/

theorem applyUpdate_id (u : DlabUpdate) (r : DlabRecord) :
    (applyUpdate u r).id = r.id := rfl

theorem find_one_update (st : DlabStore) (u : DlabUpdate) :
    (st.update u).find_one u.id = (st.find_one u.id).map (applyUpdate u) := by
  rcases st with ⟨rows, n⟩
  induction rows with
  | nil => rfl
  | cons r rs ih =>
    by_cases h : r.id = u.id
    · simp [DlabStore.update, DlabStore.find_one, h, applyUpdate_id]
    · simpa [DlabStore.update, DlabStore.find_one, h] using ih

theorem find_one_update_at (st : DlabStore) (u : DlabUpdate) (id : Nat)
    (h : u.id = id) :
    (st.update u).find_one id = (st.find_one id).map (applyUpdate u) := by
  subst h
  exact find_one_update st u

theorem find_one_insert_self (st : DlabStore)
    (data : List (String × String)) (res act : String) (s : Status)
    (hb : ∀ r ∈ st.rows, r.id ≠ st.nextId) :
    (st.insert data res act s).2.find_one st.nextId
      = some ⟨st.nextId, data, res, act, s, none⟩ := by
  rcases st with ⟨rows, n⟩
  simp only [DlabStore.insert, DlabStore.find_one] at *
  induction rows with
  | nil => simp
  | cons r rs ih =>
    have hr : r.id ≠ n := hb r (by simp)
    simp only [List.cons_append, List.find?]
    rw [show (r.id == n) = false by simpa using hr]
    exact ih (fun x hx => hb x (by simp [hx]))

theorem applyUpdate_error_none (u : DlabUpdate) (r : DlabRecord)
    (hu : u.error = none) : (applyUpdate u r).error = r.error := by
  simp [applyUpdate, hu]

theorem errNone_update (st : DlabStore) (u : DlabUpdate) (hu : u.error = none)
    (h : ∀ r ∈ st.rows, r.error = none) :
    ∀ r ∈ (st.update u).rows, r.error = none := by
  rcases st with ⟨rows, n⟩
  intro r hr
  simp only [DlabStore.update] at hr
  rcases List.mem_map.mp hr with ⟨x, hx, rfl⟩
  by_cases hid : x.id = u.id
  · simp [hid, applyUpdate_error_none u x hu, h x hx]
  · simp [hid, h x hx]

theorem run_func_marker_eq (exeDir : String) (store : DlabStore) (id : Nat)
    (rest out : List Nat) (p : ProcResult)
    (hm : containsMarker p.err = true) :
    run_func exeDir ⟨store, ⟨id :: rest, out⟩⟩ p =
      ⟨(store.update (startUpd id)).update (errorUpd id (pyExcStr p.err)),
       ⟨rest, id :: out⟩⟩ := by
  simp [run_func, run_func_trace, FIFOQueue.get, hm, applyTrace, applyMicro]

theorem run_func_nomarker_eq (exeDir : String) (store : DlabStore) (id : Nat)
    (rest out : List Nat) (p : ProcResult)
    (hm : containsMarker p.err = false) :
    run_func exeDir ⟨store, ⟨id :: rest, out⟩⟩ p =
      ⟨(store.update (startUpd id)).update (doneUpd id), ⟨rest, out⟩⟩ := by
  simp [run_func, run_func_trace, FIFOQueue.get, hm, applyTrace, applyMicro,
    FIFOQueue.delete]

theorem run_func_empty (exeDir : String) (st : SysState) (p : ProcResult)
    (h : st.queue.pending = []) : run_func exeDir st p = st := by
  rcases st with ⟨store, ⟨pending, outq⟩⟩
  simp only at h
  subst h
  simp [run_func, run_func_trace, FIFOQueue.get, applyTrace]

theorem getN_fst (q : FIFOQueue) (n : Nat) :
    (q.getN n).1 = q.pending.take n := by
  induction n generalizing q with
  | zero => simp [FIFOQueue.getN]
  | succ n ih =>
    rcases q with ⟨pending, out⟩
    cases pending with
    | nil => simp [FIFOQueue.getN, FIFOQueue.get]
    | cons h t => simp [FIFOQueue.getN, FIFOQueue.get, ih]

theorem insertAll_pending (l : List Nat) (q : FIFOQueue) :
    (q.insertAll l).pending = q.pending ++ l := by
  induction l generalizing q with
  | nil => simp [FIFOQueue.insertAll]
  | cons a t ih =>
    simp [FIFOQueue.insertAll] at ih ⊢
    rw [ih]
    simp [FIFOQueue.insert]

/-! Claim theorems. -/

/-- C1, counterexample to the claim as stated: with record 1 queued and a
process outcome whose captured error stream contains the failure marker,
the worker marks the record `error`, but the queue entry for the attempt
is NOT removed (the dequeued entry is still outstanding in the queue, so
the queue is not empty afterwards), and the stored error detail is not the
captured marker text (it is the Python bytes repr of the captured
stream).  `process_error` never calls `queue.delete()`; only the success
path `finish_task` does. -/
theorem C1_counterexample :
    recordStatus (run_func "" sampleState markerProc) 1 = some Status.error ∧
    (run_func "" sampleState markerProc).queue.outstanding = [1] ∧
    (run_func "" sampleState markerProc).queue ≠ FIFOQueue.empty ∧
    recordError (run_func "" sampleState markerProc) 1
      ≠ some (some "Traceback: boom") := by
  decide

/-- C1 amended: for every execution attempt whose captured error stream
contains the failure marker, the worker marks the record `error` with the
Python bytes repr of the captured stream as the detail and leaves the
queue entry outstanding (it is not removed); the queue entry is removed
only when the attempt concludes without a detected marker. -/
theorem C1_marker_error_entry_not_removed (exeDir : String)
    (store : DlabStore) (id : Nat) (rest out : List Nat) (rec : DlabRecord)
    (o e : String) (c : Int)
    (hfind : store.find_one id = some rec) :
    (containsMarker e = true →
      recordStatus (run_func exeDir ⟨store, ⟨id :: rest, out⟩⟩ ⟨o, e, c⟩) id
          = some Status.error ∧
      recordError (run_func exeDir ⟨store, ⟨id :: rest, out⟩⟩ ⟨o, e, c⟩) id
          = some (some (pyExcStr e)) ∧
      (run_func exeDir ⟨store, ⟨id :: rest, out⟩⟩ ⟨o, e, c⟩).queue
          = ⟨rest, id :: out⟩) ∧
    (containsMarker e = false →
      (run_func exeDir ⟨store, ⟨id :: rest, out⟩⟩ ⟨o, e, c⟩).queue
          = ⟨rest, out⟩) := by
  constructor
  · intro hm
    rw [run_func_marker_eq exeDir store id rest out ⟨o, e, c⟩ hm]
    simp only [recordStatus, recordError]
    rw [find_one_update_at _ _ id rfl, find_one_update_at _ _ id rfl, hfind]
    simp [applyUpdate, startUpd, errorUpd]
  · intro hm
    rw [run_func_nomarker_eq exeDir store id rest out ⟨o, e, c⟩ hm]

/-- C1 witness: the amended theorem applied to the concrete one-record
state and a marker-carrying process outcome. -/
theorem C1_witness :
    sampleStore.find_one 1 = some sampleRec ∧
    ((containsMarker "Traceback: boom" = true →
      recordStatus
          (run_func "" ⟨sampleStore, ⟨[1], []⟩⟩ ⟨"", "Traceback: boom", 0⟩) 1
          = some Status.error ∧
      recordError
          (run_func "" ⟨sampleStore, ⟨[1], []⟩⟩ ⟨"", "Traceback: boom", 0⟩) 1
          = some (some (pyExcStr "Traceback: boom")) ∧
      (run_func "" ⟨sampleStore, ⟨[1], []⟩⟩ ⟨"", "Traceback: boom", 0⟩).queue
          = ⟨[], [1]⟩) ∧
    (containsMarker "Traceback: boom" = false →
      (run_func "" ⟨sampleStore, ⟨[1], []⟩⟩ ⟨"", "Traceback: boom", 0⟩).queue
          = ⟨[], []⟩)) :=
  ⟨by decide,
   C1_marker_error_entry_not_removed "" sampleStore 1 [] [] sampleRec ""
     "Traceback: boom" 0 (by decide)⟩

/-- C2: for every execution attempt whose captured error stream does not
contain the failure marker, the worker marks the record `done` and fully
removes the queue entry for that attempt, for every exit code `c` of the
external process (the exit code is never examined, so a silent nonzero
exit is treated as success). -/
theorem C2_no_marker_done_entry_removed (exeDir : String)
    (store : DlabStore) (id : Nat) (rest out : List Nat) (rec : DlabRecord)
    (o e : String) (c : Int)
    (hfind : store.find_one id = some rec)
    (hm : containsMarker e = false) :
    recordStatus (run_func exeDir ⟨store, ⟨id :: rest, out⟩⟩ ⟨o, e, c⟩) id
        = some Status.done ∧
    (run_func exeDir ⟨store, ⟨id :: rest, out⟩⟩ ⟨o, e, c⟩).queue
        = ⟨rest, out⟩ := by
  rw [run_func_nomarker_eq exeDir store id rest out ⟨o, e, c⟩ hm]
  refine ⟨?_, rfl⟩
  simp only [recordStatus]
  rw [find_one_update_at _ _ id rfl, find_one_update_at _ _ id rfl, hfind]
  simp [applyUpdate, startUpd, doneUpd]

/-- C2 witness: a marker-free outcome with nonzero exit code 7 still ends
in `done` with the queue entry gone. -/
theorem C2_witness :
    sampleStore.find_one 1 = some sampleRec ∧ containsMarker "ok" = false ∧
    (recordStatus (run_func "" ⟨sampleStore, ⟨[1], []⟩⟩ ⟨"", "ok", 7⟩) 1
        = some Status.done ∧
      (run_func "" ⟨sampleStore, ⟨[1], []⟩⟩ ⟨"", "ok", 7⟩).queue
        = ⟨[], []⟩) :=
  ⟨by decide, by decide,
   C2_no_marker_done_entry_removed "" sampleStore 1 [] [] sampleRec "" "ok" 7
     (by decide) (by decide)⟩

/-- C3, counterexample to the claim as stated: the final status is `error`
but the stored error field is the Python bytes repr of the captured
diagnostic stream (the exception is raised with the raw bytes and then
stringified), not the captured diagnostic text itself. -/
theorem C3_counterexample :
    recordStatus (run_func "" sampleState markerProc) 1 = some Status.error ∧
    recordError (run_func "" sampleState markerProc) 1
      = some (some (pyExcStr "Traceback: boom")) ∧
    recordError (run_func "" sampleState markerProc) 1
      ≠ some (some "Traceback: boom") := by
  decide

/-- C3 amended: for every job whose external process emits the failure
marker in its diagnostic stream, the final status of the record is `error`
and the error field equals the Python bytes repr of the captured
diagnostic stream (a `b`-quoted rendering of the text). -/
theorem C3_error_field_is_bytes_repr (exeDir : String) (store : DlabStore)
    (id : Nat) (rest out : List Nat) (rec : DlabRecord) (o e : String)
    (c : Int)
    (hfind : store.find_one id = some rec)
    (hm : containsMarker e = true) :
    recordStatus (run_func exeDir ⟨store, ⟨id :: rest, out⟩⟩ ⟨o, e, c⟩) id
        = some Status.error ∧
    recordError (run_func exeDir ⟨store, ⟨id :: rest, out⟩⟩ ⟨o, e, c⟩) id
        = some (some (pyExcStr e)) := by
  rw [run_func_marker_eq exeDir store id rest out ⟨o, e, c⟩ hm]
  simp only [recordStatus, recordError]
  rw [find_one_update_at _ _ id rfl, find_one_update_at _ _ id rfl, hfind]
  simp [applyUpdate, startUpd, errorUpd]

/-- C3 witness: the amended theorem at a concrete marker-carrying outcome
whose text contains a single quote, exercising the smartquote case of the
bytes repr (the stored detail is double-quote delimited with the single
quote printed verbatim, as CPython renders it). -/
theorem C3_witness :
    sampleStore.find_one 1 = some sampleRec ∧
    containsMarker quoteyErr = true ∧
    (recordStatus
        (run_func "" ⟨sampleStore, ⟨[1], []⟩⟩ ⟨"", quoteyErr, 0⟩) 1
        = some Status.error ∧
      recordError
        (run_func "" ⟨sampleStore, ⟨[1], []⟩⟩ ⟨"", quoteyErr, 0⟩) 1
        = some (some (pyExcStr quoteyErr))) :=
  ⟨by decide, by decide,
   C3_error_field_is_bytes_repr "" sampleStore 1 [] [] sampleRec ""
     quoteyErr 0 (by decide) (by decide)⟩

/-- C4: any interleaving of concurrent callers of the atomic `get` is a
sequence of `n` atomic dequeues; the returned identifiers are exactly the
first `n` pending entries in order, so each still-outstanding entry
(queue position) is delivered to exactly one caller, and no identifier is
returned more often than it occurs among the pending entries. -/
theorem C4_gets_deliver_each_entry_once (q : FIFOQueue) (n : Nat) :
    (q.getN n).1 = q.pending.take n ∧
    ∀ id : Nat, ((q.getN n).1).count id ≤ q.pending.count id := by
  refine ⟨getN_fst q n, fun id => ?_⟩
  rw [getN_fst]
  exact (List.take_sublist n q.pending).count_le id

/-- C5: in the micro-step trace of one worker iteration, the write of
status `started` (position 1) happens strictly before the external process
is spawned (position 2), the process-exit step is adjacent to the spawn
(position 3) so no other record write happens while the process runs, and
in the state in force during the external execution the record reads
`started`. -/
theorem C5_started_written_before_spawn (exeDir : String)
    (store : DlabStore) (id : Nat) (rest out : List Nat) (rec : DlabRecord)
    (p : ProcResult)
    (hfind : store.find_one id = some rec) :
    (run_func_trace exeDir ⟨store, ⟨id :: rest, out⟩⟩ p).take 4
        = [MicroStep.dequeued id, MicroStep.wrote (startUpd id),
           MicroStep.spawned (buildCmd exeDir (applyUpdate (startUpd id) rec)),
           MicroStep.procFinished p] ∧
    recordStatus
        (applyTrace ⟨store, ⟨id :: rest, out⟩⟩
          ((run_func_trace exeDir ⟨store, ⟨id :: rest, out⟩⟩ p).take 3)) id
        = some Status.started := by
  have hcmd : (DlabStore.update store (startUpd id)).find_one id
      = some (applyUpdate (startUpd id) rec) := by
    rw [find_one_update_at _ _ id rfl, hfind]
    rfl
  constructor
  · simp [run_func_trace, FIFOQueue.get, hcmd, List.take]
  · simp only [run_func_trace, FIFOQueue.get, hcmd]
    simp only [List.take, List.cons_append]
    simp only [applyTrace, List.foldl, applyMicro, FIFOQueue.get,
      recordStatus]
    rw [find_one_update_at _ _ id rfl, hfind]
    simp [applyUpdate, startUpd]

/-- C5 witness: the trace-order theorem at a concrete state and process
outcome. -/
theorem C5_witness :
    sampleStore.find_one 1 = some sampleRec ∧
    ((run_func_trace "" ⟨sampleStore, ⟨[1], []⟩⟩ ⟨"o", "x", 0⟩).take 4
        = [MicroStep.dequeued 1, MicroStep.wrote (startUpd 1),
           MicroStep.spawned (buildCmd "" (applyUpdate (startUpd 1) sampleRec)),
           MicroStep.procFinished ⟨"o", "x", 0⟩] ∧
      recordStatus
        (applyTrace ⟨sampleStore, ⟨[1], []⟩⟩
          ((run_func_trace "" ⟨sampleStore, ⟨[1], []⟩⟩ ⟨"o", "x", 0⟩).take 3))
        1 = some Status.started) :=
  ⟨by decide,
   C5_started_written_before_spawn "" sampleStore 1 [] [] sampleRec
     ⟨"o", "x", 0⟩ (by decide)⟩

/-- C6, evaluation at the failing input: `build_cmd` does assemble the
interpreter path, the launcher path, the two positionals (resource and
action) and one `--key=value` flag per payload entry joined into one
string — but `run_func` spawns it with `subprocess.Popen(cmd, shell=True)`
where `cmd` is that LIST (`api/managers.py` lines 88-91), so the shell
executes only the first element, the interpreter path, and the launcher
path, the resource, the action and the flags become positional parameters
of the wrapping shell that the executed program never receives.  The
external process is therefore never invoked with one argument per key
plus the two leading positionals, contrary to the claim (which states the
clear intent of the specification). -/
theorem C6_popen_executes_only_interpreter :
    buildCmd "/usr/bin" sampleRec
      = ["/usr/bin/python", "/usr/bin/dlab", "project-a", "deploy",
         "--size=medium"] ∧
    popenShellCommand (buildCmd "/usr/bin" sampleRec) = "/usr/bin/python" ∧
    popenShellPositionals (buildCmd "/usr/bin" sampleRec)
      = ["/usr/bin/dlab", "project-a", "deploy", "--size=medium"] := by
  decide

/-- C7: `create_record` returns the fresh identifier synchronously, the
inserted record has status `processed` (queued) with the given payload,
resource and action, and the identifier is appended to the queue tail;
the transition operation returns the same identifier, resets the existing
record to status `processed` with the new action (all other fields kept),
and re-enqueues the identifier at the tail. -/
theorem C7_create_inserts_and_enqueues (st : SysState)
    (data : List (String × String)) (resource action : String) (id : Nat)
    (act2 : String) (rec : DlabRecord)
    (hb : (st.store.rows.all fun r => decide (r.id < st.store.nextId))
        = true)
    (hfind : st.store.find_one id = some rec) :
    (create_record st data resource action).1 = st.store.nextId ∧
    (create_record st data resource action).2.store.find_one st.store.nextId
        = some ⟨st.store.nextId, data, resource, action, Status.processed,
                none⟩ ∧
    (create_record st data resource action).2.queue.pending
        = st.queue.pending ++ [st.store.nextId] ∧
    (delete_record st id act2).1 = id ∧
    (delete_record st id act2).2.store.find_one id
        = some { rec with status := Status.processed, action := act2 } ∧
    (delete_record st id act2).2.queue.pending
        = st.queue.pending ++ [id] := by
  have hb2 : ∀ r ∈ st.store.rows, r.id ≠ st.store.nextId := by
    intro r hr
    have h := List.all_eq_true.mp hb r hr
    simp only [decide_eq_true_eq] at h
    exact Nat.ne_of_lt h
  refine ⟨rfl, ?_, rfl, rfl, ?_, rfl⟩
  · exact find_one_insert_self st.store data resource action Status.processed
      hb2
  · show (st.store.update _).find_one id = _
    rw [find_one_update_at _ _ id rfl, hfind]
    simp [applyUpdate]

/-- C7 witness: creation and transition at the concrete one-record
state. -/
theorem C7_witness :
    (sampleState.store.rows.all fun r =>
        decide (r.id < sampleState.store.nextId)) = true ∧
    sampleState.store.find_one 1 = some sampleRec ∧
    ((create_record sampleState [("a", "b")] "res" "start").1
        = sampleState.store.nextId ∧
      (create_record sampleState [("a", "b")] "res" "start").2.store.find_one
          sampleState.store.nextId
        = some ⟨sampleState.store.nextId, [("a", "b")], "res", "start",
                Status.processed, none⟩ ∧
      (create_record sampleState [("a", "b")] "res" "start").2.queue.pending
        = sampleState.queue.pending ++ [sampleState.store.nextId] ∧
      (delete_record sampleState 1 "stop").1 = 1 ∧
      (delete_record sampleState 1 "stop").2.store.find_one 1
        = some { sampleRec with
                 status := Status.processed, action := "stop" } ∧
      (delete_record sampleState 1 "stop").2.queue.pending
        = sampleState.queue.pending ++ [1]) :=
  ⟨by decide, by decide,
   C7_create_inserts_and_enqueues sampleState [("a", "b")] "res" "start" 1
     "stop" sampleRec (by decide) (by decide)⟩

/-- C8, counterexample to the claim as stated: after a failed attempt, a
transition re-enqueue and a successful attempt, record 1 is reachable with
status `done` while its error field still holds the stale detail of the
earlier failed attempt — the error field is populated although the status
is not `error`, and it was neither cleared nor superseded before the next
terminal state was recorded. -/
theorem C8_counterexample :
    recordStatus (applyOps "" initState staleErrOps) 1 = some Status.done ∧
    recordError (applyOps "" initState staleErrOps) 1 ≠ some none ∧
    recordError (applyOps "" initState staleErrOps) 1
      = some (some (pyExcStr "Traceback: boom")) := by
  decide

/-- C8 amended: the error field is written only by the error transition of
a marker-detected failure and is never cleared afterwards; consequently,
in every state reached by operations whose worker iterations all concluded
without a detected marker, every record still has an empty error field,
while after a marker failure the stale detail persists through re-enqueue
and later attempts. -/
theorem C8_error_only_written_by_marker_runs (exeDir : String)
    (ops : List Op) (st : SysState)
    (hst : (st.store.rows.all fun r => r.error == none) = true)
    (hops : (ops.all opNoMarker) = true) :
    ((applyOps exeDir st ops).store.rows.all fun r => r.error == none)
        = true := by
  induction ops generalizing st with
  | nil => simpa [applyOps] using hst
  | cons op rest ih =>
    have hop : opNoMarker op = true :=
      List.all_eq_true.mp hops op (by simp)
    have hrest : (rest.all opNoMarker) = true := by
      rw [List.all_eq_true] at hops ⊢
      intro x hx
      exact hops x (by simp [hx])
    have hstep :
        (((applyOp exeDir st op).store.rows.all fun r => r.error == none))
          = true := by
      have hst2 : ∀ r ∈ st.store.rows, r.error = none := by
        rw [List.all_eq_true] at hst
        intro r hr
        simpa using hst r hr
      rw [List.all_eq_true]
      intro r hr
      simp only [beq_iff_eq]
      revert hr
      cases op with
      | create d res a =>
        intro hr
        simp only [applyOp, create_record, DlabStore.insert] at hr
        rcases List.mem_append.mp hr with h | h
        · exact hst2 r h
        · simp only [List.mem_singleton] at h
          rw [h]
      | transition i a =>
        intro hr
        exact errNone_update st.store _ rfl hst2 r hr
      | runWorker p =>
        intro hr
        have hm : containsMarker p.err = false := by
          simpa [opNoMarker] using hop
        rcases hq : st.queue.pending with _ | ⟨hid, hrest2⟩
        · rw [applyOp] at hr
          rw [run_func_empty exeDir st p hq] at hr
          exact hst2 r hr
        · rcases st with ⟨store, ⟨pending, outq⟩⟩
          simp only at hq
          subst hq
          rw [applyOp, run_func_nomarker_eq exeDir store hid hrest2 outq p hm]
            at hr
          exact errNone_update _ _ rfl
            (errNone_update _ _ rfl hst2) r hr
    have hsplit : applyOps exeDir st (op :: rest)
        = applyOps exeDir (applyOp exeDir st op) rest := by
      simp [applyOps]
    rw [hsplit]
    exact ih (applyOp exeDir st op) hstep hrest

/-- C8 witness: a create followed by a marker-free worker run leaves every
record with an empty error field. -/
theorem C8_witness :
    (initState.store.rows.all fun r => r.error == none) = true ∧
    ([Op.create [("k", "v")] "res" "deploy",
      Op.runWorker ⟨"", "all good", 0⟩].all opNoMarker) = true ∧
    ((applyOps "" initState
        [Op.create [("k", "v")] "res" "deploy",
         Op.runWorker ⟨"", "all good", 0⟩]).store.rows.all fun r =>
          r.error == none) = true :=
  ⟨by decide, by decide,
   C8_error_only_written_by_marker_runs ""
     [Op.create [("k", "v")] "res" "deploy",
      Op.runWorker ⟨"", "all good", 0⟩] initState (by decide) (by decide)⟩

/-- C9: command construction is pure and deterministic — two builder calls
over equal records produce identical argument lists and identical joined
parameter strings. -/
theorem C9_idempotent_command_construction (exeDir : String)
    (r1 r2 : DlabRecord) (h : r1 = r2) :
    buildCmd exeDir r1 = buildCmd exeDir r2 ∧
    paramsOf r1.request = paramsOf r2.request := by
  subst h
  exact ⟨rfl, rfl⟩

/-- C9 witness: two constructions from the sample record coincide. -/
theorem C9_witness :
    sampleRec = sampleRec ∧
    (buildCmd "/usr/bin" sampleRec = buildCmd "/usr/bin" sampleRec ∧
      paramsOf sampleRec.request = paramsOf sampleRec.request) :=
  ⟨rfl, C9_idempotent_command_construction "/usr/bin" sampleRec sampleRec rfl⟩

/-- C10: after inserting the identifiers of `l` in order into the empty
queue, `n = l.length` sequential `get` calls return exactly `l`: queue
entries are consumed strictly in insertion order. -/
theorem C10_fifo_ordering (l : List Nat) :
    ((FIFOQueue.empty.insertAll l).getN l.length).1 = l := by
  rw [getN_fst, insertAll_pending]
  simp [FIFOQueue.empty]

end DLabCore
